import Mathlib

/-!
Verification of the coffee-app core against its specification.

The definitions below are a shallow embedding of the TypeScript source:
JavaScript numbers are modelled as an inductive type over `ℚ` with explicit
`NaN` and infinities, JavaScript strings as `String` or `List Char`,
fallible lookups as `Option`, and the DOM parser (an external browser
capability) as an abstract outcome parameter.
-/

/-- Model of a JavaScript `number`: `NaN`, the two infinities, or a finite
value represented exactly as a rational.  (`-0` is identified with `0`,
which no claim distinguishes.)  A string input that fails `Number(...)`
parsing is represented as `nan`. -/
inductive JSNum where
  | nan
  | posInf
  | negInf
  | fin (q : ℚ)
deriving DecidableEq, Repr

/-- JavaScript truthiness of a number: `NaN` and `0` are falsy. -/
def jsTruthy : JSNum → Bool
  | .nan => false
  | .posInf => true
  | .negInf => true
  | .fin q => decide (q ≠ 0)

/-- The idiom `Number(x) || 0` applied to an already-converted number:
falsy values (`NaN`, `0`) become `0`, everything else is kept. -/
def numOrZero (x : JSNum) : JSNum :=
  if jsTruthy x then x else .fin 0

/-- JavaScript division on the `JSNum` model. -/
def jsDiv : JSNum → JSNum → JSNum
  | .nan, _ => .nan
  | _, .nan => .nan
  | .posInf, .posInf => .nan
  | .posInf, .negInf => .nan
  | .negInf, .posInf => .nan
  | .negInf, .negInf => .nan
  | .posInf, .fin q => if q < 0 then .negInf else .posInf
  | .negInf, .fin q => if q < 0 then .posInf else .negInf
  | .fin _, .posInf => .fin 0
  | .fin _, .negInf => .fin 0
  | .fin p, .fin q =>
      if q = 0 then
        (if p = 0 then .nan else if p < 0 then .negInf else .posInf)
      else .fin (p / q)

/-- The comparison `x > 0` on a JavaScript number (`NaN > 0` is false). -/
def jsGtZero : JSNum → Bool
  | .nan => false
  | .posInf => true
  | .negInf => false
  | .fin q => decide (0 < q)

/-- Rounding to two decimal places as ECMAScript `toFixed(2)` specifies it:
the integer `n` with `n / 100` closest to the input, ties resolved towards
the larger `n`. -/
def round2 (q : ℚ) : ℚ :=
  (⌊q * 100 + 1 / 2⌋ : ℚ) / 100

/-- `Number(x.toFixed(2))` on the model: finite values are rounded to two
decimals; `NaN` and the infinities print and re-parse to themselves. -/
def toFixed2Number : JSNum → JSNum
  | .fin q => .fin (round2 q)
  | x => x

/-- Whether a stored numeric value is a non-negative finite number. -/
def isNonNegFinite : JSNum → Bool
  | .fin q => decide (0 ≤ q)
  | _ => false

/- ===== JavaScript string primitives ===== -/

/-- `String.prototype.trim()`: strip leading and trailing whitespace. -/
def jsTrim (s : List Char) : List Char :=
  ((s.dropWhile Char.isWhitespace).reverse.dropWhile Char.isWhitespace).reverse

/-- `String.prototype.toLowerCase()` (character-wise lowering suffices for
the ASCII contents compared by the code). -/
def jsToLower (s : List Char) : List Char :=
  s.map Char.toLower

/-- `s.replace(/c/g, rep)` for a single-character pattern: every occurrence
of `target` is replaced by `rep`. -/
def replaceAll (target : Char) (rep : List Char) : List Char → List Char
  | [] => []
  | c :: cs => (if c = target then rep else [c]) ++ replaceAll target rep cs

/-- The double-quote character. -/
def quoteChar : Char := Char.ofNat 34

/-- The single-quote (apostrophe) character. -/
def aposChar : Char := Char.ofNat 39

/-- `InputSanitizer.sanitizeForSoap` (coffee.validators.ts 238-248):
empty input short-circuits to the empty string; otherwise the five
XML-unsafe characters are globally replaced, ampersand first, and the
result is trimmed. -/
def sanitizeForSoap (input : List Char) : List Char :=
  if input = [] then []
  else
    jsTrim
      (replaceAll aposChar "&#39;".toList
        (replaceAll quoteChar "&quot;".toList
          (replaceAll '>' "&gt;".toList
            (replaceAll '<' "&lt;".toList
              (replaceAll '&' "&amp;".toList input)))))

/-- Single-pass, character-wise XML escaping: what a correct
order-respecting escaper does to each character exactly once. -/
def escapeXmlChar (c : Char) : List Char :=
  if c = '&' then "&amp;".toList
  else if c = '<' then "&lt;".toList
  else if c = '>' then "&gt;".toList
  else if c = quoteChar then "&quot;".toList
  else if c = aposChar then "&#39;".toList
  else [c]

/-- The spec's concrete escaping input, `O'Brien & <test>`. -/
def obrienInput : List Char :=
  ['O', aposChar, 'B', 'r', 'i', 'e', 'n', ' ', '&', ' ', '<', 't', 'e', 's', 't', '>']

/-- The spec's expected escaping output. -/
def obrienEscaped : List Char :=
  "O&#39;Brien &amp; &lt;test&gt;".toList

/- ===== Response parser (AuthService.parseLoginResponse) ===== -/

/-- A DOM element as far as the parser inspects it: its `textContent`,
which may be `null`. -/
structure XmlNode where
  textContent : Option String
deriving DecidableEq, Repr

/-- Outcome of handing the response body to the browser DOM machinery
(an external capability): either some DOM operation throws, or parsing
yields the first `LoginResult` element found by the namespaced lookup and
the first found by the plain lookup (each possibly absent). -/
inductive DomOutcome where
  | throws
  | parsed (nsNode : Option XmlNode) (plainNode : Option XmlNode)
deriving DecidableEq, Repr

/-- The node the parser settles on: the namespaced hit if any, otherwise
the non-namespaced fallback; nothing when the DOM threw. -/
def selectedNode : DomOutcome → Option XmlNode
  | .throws => none
  | .parsed nsNode plainNode => nsNode.orElse (fun _ => plainNode)

/-- `AuthService.parseLoginResponse` (part_003 lines 111-129): inside a
`try`, look up `LoginResult` by namespace with a plain fallback, take its
`textContent` (defaulting to the empty string), trim, lower-case, and
compare to `"true"`; any thrown error is caught and yields `false`. -/
def parseLoginResponse (d : DomOutcome) : Bool :=
  match d with
  | .throws => false
  | .parsed nsNode plainNode =>
      let node := nsNode.orElse (fun _ => plainNode)
      let content := (node.bind XmlNode.textContent).getD ""
      jsToLower (jsTrim content.toList) == "true".toList

/- ===== Typed errors and UI state ===== -/

/-- The discriminant kinds of the typed errors (error.models.ts). -/
inductive ErrKind where
  | authentication
  | network
  | server
  | parsing
  | timeout
  | unknown
deriving DecidableEq, Repr

/-- A typed error: kind, user-facing message, optional diagnostic detail.
The wall-clock timestamp attached by `ErrorFactory` is external input and
is not modelled; no claim inspects it. -/
structure UiError where
  kind : ErrKind
  message : String
  details : Option String
deriving DecidableEq, Repr

/-- `ErrorFactory.createLoginError` (error.models.ts). -/
def createLoginError (kind : ErrKind) (message : String) (details : String) : UiError :=
  ⟨kind, message, some details⟩

/-- The UI/session state the auth flow touches: the loading flag and error
list held by `UiStateService`, and the authentication flag held by
`AuthService` (in-memory value and persisted flag move together, per the
source's `updateAuthState`). -/
structure UiState where
  loading : Bool
  errors : List UiError
  authenticated : Bool
deriving DecidableEq, Repr

/-- `UiStateService.removeError` (ui-state.service.ts 201-208): when the
index is in `[0, length)` the entry at that index is spliced out of a copy
of the list, otherwise nothing happens.  The index is an arbitrary
JavaScript integer, hence `ℤ`. -/
def removeError (errors : List UiError) (index : ℤ) : List UiError :=
  if 0 ≤ index ∧ index < errors.length then
    errors.eraseIdx index.toNat
  else errors

/- ===== Transport classification and the login flow ===== -/

/-- A transport-level failure as the error handler inspects it:
`error.status` (absent on non-HTTP errors such as timeouts), whether
`error.name === "TimeoutError"`, and `error.message`. -/
structure TransportError where
  status : Option ℤ
  isTimeout : Bool
  message : Option String
deriving DecidableEq, Repr

/-- Modelled from the spec: the retry/transport classifier of §4.3 — the
`AuthService.isRetryableError` attested by its unit test (part_002
lines 239-249) whose implementation is not among the provided sources.
Retryable iff status is exactly 0, status is at least 500, or the error is
a timeout. -/
def isRetryableError (e : TransportError) : Bool :=
  e.status == some 0
    || (match e.status with
        | some st => decide (500 ≤ st)
        | none => false)
    || e.isTimeout

/-- `AuthService.handleLoginError` (part_003 lines 136-173): force the
session unauthenticated, then synthesize one typed error — `network` for
status 0, `server` for status ≥ 500 (status text in the details), and a
`network`-kind connection error otherwise — append it, and return `false`. -/
def handleLoginError (e : TransportError) (s : UiState) : UiState × Bool :=
  let s1 : UiState := { s with authenticated := false }
  let loginError :=
    if e.status = some 0 then
      createLoginError .network
        "Unable to connect to the server. Please check your connection."
        "Network error"
    else if (match e.status with | some st => decide (500 ≤ st) | none => false) then
      createLoginError .server
        "Server error occurred. Please try again later."
        ("Server returned " ++ (match e.status with | some st => toString st | none => "undefined"))
    else
      createLoginError .network
        "Login failed due to a connection error. Please try again."
        (e.message.getD "Unknown error")
  ({ s1 with errors := s1.errors ++ [loginError] }, false)

/-- One transport attempt either yields a response body or fails. -/
inductive TransportResult where
  | ok (body : String)
  | err (e : TransportError)

/-- The `tap(success => ...)` stage of `AuthService.login` (part_003
lines 77-91): record the parsed outcome in the session state and, on a
`false` parse, append the fixed `authentication`-kind error.  The third
component counts transport requests issued (one). -/
def loginParsedStep (success : Bool) (s : UiState) : UiState × Bool × ℕ :=
  let s1 : UiState := { s with authenticated := success }
  if success then (s1, true, 1)
  else
    ({ s1 with errors := s1.errors ++
        [createLoginError .authentication
          "Invalid username or password. Please try again."
          "Authentication failed"] },
     false, 1)

/-- Modelled from the spec: the bounded-retry request loop of §4.5/§5 —
the retrying `AuthService.login` attested by its unit test (part_002
lines 150-166, one request per attempt with `RETRY_ATTEMPTS + 1` total
attempts) whose implementation is not among the provided sources.
`remaining` counts retries still allowed, `idx` indexes the transport
outcome of each successive attempt (`responses`), `dom` is the browser's
XML parsing of a body.  Terminal outcomes follow the source
(`parseLoginResponse`, the `tap` stage, `handleLoginError` from part_003);
a retryable failure with attempts remaining re-issues the request (the
fixed backoff delay has no observable effect in this model). -/
def loginAttempts (dom : String → DomOutcome) (responses : ℕ → TransportResult) :
    ℕ → ℕ → UiState → UiState × Bool × ℕ
  | 0, idx, s =>
      match responses idx with
      | .ok body => loginParsedStep (parseLoginResponse (dom body)) s
      | .err e =>
          let r := handleLoginError e s
          (r.1, r.2, 1)
  | n + 1, idx, s =>
      match responses idx with
      | .ok body => loginParsedStep (parseLoginResponse (dom body)) s
      | .err e =>
          if isRetryableError e then
            let r := loginAttempts dom responses n (idx + 1) s
            (r.1, r.2.1, r.2.2 + 1)
          else
            let r := handleLoginError e s
            (r.1, r.2, 1)

/-- Modelled from the spec: the login entry point of §4.5 — busy guard
(rejected as a no-op returning `false` while a login is in flight, attested
by the unit test part_002 lines 179-188), then clear errors, start loading,
run the attempt loop with `retryLimit` retries, and always stop loading on
exit.  Returns the final state, the boolean outcome, and the number of
transport requests issued. -/
def login (retryLimit : ℕ) (dom : String → DomOutcome) (responses : ℕ → TransportResult)
    (s : UiState) : UiState × Bool × ℕ :=
  if s.loading then (s, false, 0)
  else
    let s1 : UiState := { s with errors := [], loading := true }
    let r := loginAttempts dom responses retryLimit 0 s1
    ({ r.1 with loading := false }, r.2.1, r.2.2)

/-- `LoginPage.submit` (part_006 lines 57-81): bail out when the form is
invalid or a loading operation is in flight; otherwise run the login and
adopt its state.  Second component counts transport requests issued. -/
def submit (formInvalid : Bool) (doLogin : UiState → UiState × Bool × ℕ)
    (s : UiState) : UiState × ℕ :=
  if formInvalid || s.loading then (s, 0)
  else
    let r := doLogin s
    (r.1, r.2.2)

/-- A no-connection transport failure (HTTP status 0). -/
def netErr0 : TransportError := ⟨some 0, false, none⟩

/-- The typed error `handleLoginError` synthesizes for status 0. -/
def connectionNetworkError : UiError :=
  createLoginError .network
    "Unable to connect to the server. Please check your connection."
    "Network error"

/- ===== Local record store (LocalDbService, part_003 lines 200-303) ===== -/

/-- A stored flavour record (coffee.models.ts `FlavourRecord`).  Numeric
fields are JavaScript numbers; the two photo fields are optional. -/
structure FlavourRecord where
  id : String
  barcode : String
  name : String
  pricePerBox : JSNum
  pricePerPod : JSNum
  podsPerBox : JSNum
  photoName : Option String
  photoData : Option String
deriving DecidableEq, Repr

/-- The argument of `addFlavour`:
`Omit<FlavourRecord, "id"> & Partial<Pick<FlavourRecord, "id">>` — a full
record whose `id` may be absent.  Numeric fields are the values after the
caller's `Number(...)` conversion, so an unparsable input appears as
`JSNum.nan`. -/
structure NewFlavour where
  id : Option String
  barcode : String
  name : String
  pricePerBox : JSNum
  pricePerPod : JSNum
  podsPerBox : JSNum
  photoName : Option String
  photoData : Option String
deriving DecidableEq, Repr

/-- A `Partial<FlavourRecord>` as passed to `updateFlavour`: for each
field, `some v` when the partial carries that field and `none` when it is
absent. -/
structure FlavourUpdate where
  id : Option String
  barcode : Option String
  name : Option String
  pricePerBox : Option JSNum
  pricePerPod : Option JSNum
  podsPerBox : Option JSNum
  photoName : Option (Option String)
  photoData : Option (Option String)
deriving DecidableEq, Repr

/-- The partial update with no fields present. -/
def emptyUpdate : FlavourUpdate :=
  ⟨none, none, none, none, none, none, none, none⟩

/-- The spread merge `{ ...old, ...updates }`: fields present in the
partial win, missing fields keep the old value. -/
def mergeFlavour (old : FlavourRecord) (u : FlavourUpdate) : FlavourRecord :=
  { id := u.id.getD old.id
    barcode := u.barcode.getD old.barcode
    name := u.name.getD old.name
    pricePerBox := u.pricePerBox.getD old.pricePerBox
    pricePerPod := u.pricePerPod.getD old.pricePerPod
    podsPerBox := u.podsPerBox.getD old.podsPerBox
    photoName := u.photoName.getD old.photoName
    photoData := u.photoData.getD old.photoData }

/-- `LocalDbService.getFlavour` (part_003 lines 241-243):
`Flavours.find(f => f.id === id)`. -/
def getFlavour (db : List FlavourRecord) (id : String) : Option FlavourRecord :=
  db.find? (fun f => f.id == id)

/-- `LocalDbService.addFlavour` (part_003 lines 245-261): keep a supplied
non-empty id, otherwise use the freshly generated one (`freshId` stands
for the `generateId()` call, whose randomness is external); coerce each
numeric field through `Number(...) || 0`; append the new record and return
the pair (new collection, stored record). -/
def addFlavour (freshId : String) (db : List FlavourRecord) (record : NewFlavour) :
    List FlavourRecord × FlavourRecord :=
  let id :=
    match record.id with
    | some s => if 0 < s.length then s else freshId
    | none => freshId
  let newRecord : FlavourRecord :=
    { id := id
      barcode := record.barcode
      name := record.name
      pricePerBox := numOrZero record.pricePerBox
      pricePerPod := numOrZero record.pricePerPod
      podsPerBox := numOrZero record.podsPerBox
      photoName := record.photoName
      photoData := record.photoData }
  (db ++ [newRecord], newRecord)

/-- `LocalDbService.updateFlavour` (part_003 lines 263-270): locate the
first record whose id matches (`findIndex`), replace that slot by the
spread merge, and return the merged record; `none` and an untouched
collection when no record matches. -/
def updateFlavour (db : List FlavourRecord) (id : String) (u : FlavourUpdate) :
    List FlavourRecord × Option FlavourRecord :=
  match db with
  | [] => ([], none)
  | f :: rest =>
      if f.id == id then
        let merged := mergeFlavour f u
        (merged :: rest, some merged)
      else
        let r := updateFlavour rest id u
        (f :: r.1, r.2)

/-- `LocalDbService.deleteFlavour` (part_003 lines 272-276):
`Flavours.filter(f => f.id !== id)`. -/
def deleteFlavour (db : List FlavourRecord) (id : String) : List FlavourRecord :=
  db.filter (fun f => f.id != id)

/- ===== Identifier generation (LocalDbService.generateId) ===== -/

/-- The template whose `x`/`y` positions `generateId` fills in. -/
def uuidTemplate : List Char := "xxxxxxxx-xxxx-4xxx-yxxx-xxxxxxxxxxxx".toList

/-- The replacement callback's random value for one template position:
with `crypto.getRandomValues` available, `(byte & 0x0f) | 0x10` on a fresh
random byte; otherwise `(Math.random() * 16) | 0`.  The random source is
the stream `rnd` (reduced mod 256 / mod 16 to the ranges the two browser
primitives deliver). -/
def generateIdRand (cryptoAvailable : Bool) (rnd : ℕ → ℕ) (k : ℕ) : ℕ :=
  if cryptoAvailable then ((rnd k % 256) &&& 0x0f) ||| 0x10
  else rnd k % 16

/-- The body of `generateId`'s `.replace(/[xy]/g, c => ...)`: walk the
template; each `x`/`y` consumes one random value `r` and contributes
`v.toString(16)` where `v = r` for `x` and `v = (r & 0x3) | 0x8` for `y`;
other characters pass through. -/
def generateIdGo (cryptoAvailable : Bool) (rnd : ℕ → ℕ) :
    List Char → ℕ → List Char
  | [], _ => []
  | c :: cs, k =>
      if c = 'x' then
        Nat.toDigits 16 (generateIdRand cryptoAvailable rnd k)
          ++ generateIdGo cryptoAvailable rnd cs (k + 1)
      else if c = 'y' then
        Nat.toDigits 16 ((generateIdRand cryptoAvailable rnd k &&& 0x3) ||| 0x8)
          ++ generateIdGo cryptoAvailable rnd cs (k + 1)
      else
        c :: generateIdGo cryptoAvailable rnd cs k

/-- `LocalDbService.generateId` (part_003 lines 282-302). -/
def generateId (cryptoAvailable : Bool) (rnd : ℕ → ℕ) : List Char :=
  generateIdGo cryptoAvailable rnd uuidTemplate 0

/- ===== Derived price (ManageFlavourPage.recalculatePricePerPod) ===== -/

/-- `ManageFlavourPage.recalculatePricePerPod` (part_005 lines 298-305):
coerce both raw form values through `Number(...) || 0`; when the coerced
pods-per-box is `> 0`, the price per pod is
`Number((pricePerBox / podsPerBox).toFixed(2))`, otherwise `0`. -/
def recalculatePricePerPod (pricePerBoxRaw podsPerBoxRaw : JSNum) : JSNum :=
  let pricePerBox := numOrZero pricePerBoxRaw
  let podsPerBox := numOrZero podsPerBoxRaw
  if jsGtZero podsPerBox then toFixed2Number (jsDiv pricePerBox podsPerBox)
  else .fin 0

/- ===== Concrete sample data used by counterexamples and witnesses ===== -/

/-- A sample stored record. -/
def sampleRecord : FlavourRecord :=
  ⟨"a", "123", "Arabica", .fin 10, .fin 1, .fin 10, none, none⟩

/-- A second sample stored record with a different id. -/
def sampleRecord2 : FlavourRecord :=
  ⟨"b", "456", "Robusta", .fin 8, .fin 2, .fin 4, none, none⟩

/-- An add input whose price parses to a negative number. -/
def negPriceInput : NewFlavour :=
  ⟨some "neg", "999", "Negative", .fin (-5), .fin 1, .fin 10, none, none⟩

/-- A partial update that supplies only a new id. -/
def idOnlyUpdate : FlavourUpdate :=
  { emptyUpdate with id := some "b" }

/-- A partial update that supplies only a new name. -/
def nameOnlyUpdate : FlavourUpdate :=
  { emptyUpdate with name := some "X" }

/-- Whether no numeric field of a record is `NaN`. -/
def noNaNFields (f : FlavourRecord) : Prop :=
  f.pricePerBox ≠ .nan ∧ f.pricePerPod ≠ .nan ∧ f.podsPerBox ≠ .nan

/-- Two demo errors for concrete instantiations. -/
def demoError1 : UiError := ⟨.network, "n1", none⟩

/-- A second demo error. -/
def demoError2 : UiError := ⟨.server, "n2", none⟩

/-- A concrete two-element error list. -/
def demoErrors : List UiError := [demoError1, demoError2]

/-- A transport trace that fails with status 0 on every attempt. -/
def allNetResponses : ℕ → TransportResult := fun _ => .err netErr0

/-- A transport trace failing once with status 0, then succeeding with a
body `goodBody` (below). -/
def failThenOkResponses : ℕ → TransportResult := fun i =>
  if i = 0 then .err netErr0 else .ok "goodBody"

/-- A DOM model under which every body parses to a namespaced
`LoginResult` node containing `true`. -/
def goodDom : String → DomOutcome := fun _ => .parsed (some ⟨some "true"⟩) none

/-- A DOM model under which parsing always throws. -/
def noDom : String → DomOutcome := fun _ => .throws

/-- The idle UI/session state. -/
def idleState : UiState := ⟨false, [], false⟩

/-- A state with a login already in flight. -/
def busyState : UiState := ⟨true, [], false⟩

/- ===================== Theorems ===================== -/

theorem replaceAll_append (t : Char) (rep : List Char) (a b : List Char) :
    replaceAll t rep (a ++ b) = replaceAll t rep a ++ replaceAll t rep b := by
  induction a with
  | nil => simp [replaceAll]
  | cons c cs ih => simp [replaceAll, ih]

theorem escapeStep (c : Char) :
    replaceAll aposChar "&#39;".toList
      (replaceAll quoteChar "&quot;".toList
        (replaceAll '>' "&gt;".toList
          (replaceAll '<' "&lt;".toList
            (replaceAll '&' "&amp;".toList [c])))) = escapeXmlChar c := by
  by_cases h1 : c = '&'
  · subst h1; decide
  · by_cases h2 : c = '<'
    · subst h2; decide
    · by_cases h3 : c = '>'
      · subst h3; decide
      · by_cases h4 : c = quoteChar
        · subst h4; decide
        · by_cases h5 : c = aposChar
          · subst h5; decide
          · simp [replaceAll, escapeXmlChar, h1, h2, h3, h4, h5]

theorem escapeChain_eq_flatMap (l : List Char) :
    replaceAll aposChar "&#39;".toList
      (replaceAll quoteChar "&quot;".toList
        (replaceAll '>' "&gt;".toList
          (replaceAll '<' "&lt;".toList
            (replaceAll '&' "&amp;".toList l)))) = l.flatMap escapeXmlChar := by
  induction l with
  | nil => simp [replaceAll]
  | cons c cs ih =>
      have hc : replaceAll '&' "&amp;".toList (c :: cs) =
          replaceAll '&' "&amp;".toList [c] ++ replaceAll '&' "&amp;".toList cs := by
        simp [replaceAll]
      rw [hc, replaceAll_append, replaceAll_append, replaceAll_append, replaceAll_append,
        List.flatMap_cons, escapeStep, ih]

/-- C6: for every input string, `sanitizeForSoap` equals the single-pass
character-wise XML escaper (followed by the source's trailing trim) —
ampersand is escaped first, so no character is ever double-escaped — and
on the spec's concrete input `O'Brien & <test>` it produces
`O&#39;Brien &amp; &lt;test&gt;`. -/
theorem sanitizeForSoap_claim :
    (∀ input : List Char, sanitizeForSoap input = jsTrim (input.flatMap escapeXmlChar)) ∧
    sanitizeForSoap obrienInput = obrienEscaped := by
  constructor
  · intro input
    by_cases h : input = []
    · subst h; rfl
    · rw [sanitizeForSoap, if_neg h, escapeChain_eq_flatMap]
  · decide

/-- C10: `removeError` leaves the list unchanged (without throwing) for
every index outside `[0, length)`, and for an in-range index removes
exactly the entry at that index, keeping all other entries in order. -/
theorem removeError_claim :
    ∀ (errors : List UiError) (index : ℤ),
      (¬ (0 ≤ index ∧ index < errors.length) → removeError errors index = errors) ∧
      (0 ≤ index → index < errors.length →
        removeError errors index =
          errors.take index.toNat ++ errors.drop (index.toNat + 1)) := by
  intro errors index
  constructor
  · intro h
    rw [removeError, if_neg h]
  · intro h1 h2
    rw [removeError, if_pos ⟨h1, h2⟩, List.eraseIdx_eq_take_drop_succ]

/-- C10 witness: a concrete out-of-range index is a no-op and a concrete
in-range index removes exactly that entry. -/
theorem removeError_claim_witness :
    removeError demoErrors 5 = demoErrors ∧
    removeError demoErrors 0 = demoErrors.take 0 ++ demoErrors.drop 1 :=
  ⟨(removeError_claim demoErrors 5).1 (by decide),
   (removeError_claim demoErrors 0).2 (by decide) (by decide)⟩

/-- C9: `deleteFlavour` removes every record whose id matches (so a
subsequent `getFlavour` is not-found), keeps exactly the records with
other ids in their relative order, and is the identity when nothing
matches. -/
theorem deleteFlavour_claim :
    ∀ (db : List FlavourRecord) (id : String),
      getFlavour (deleteFlavour db id) id = none ∧
      (deleteFlavour db id).Sublist db ∧
      (∀ f, f ∈ deleteFlavour db id ↔ f ∈ db ∧ f.id ≠ id) ∧
      ((∀ f ∈ db, f.id ≠ id) → deleteFlavour db id = db) := by
  intro db id
  refine ⟨?_, ?_, ?_, ?_⟩
  · rw [getFlavour, List.find?_eq_none]
    intro x hx
    rw [deleteFlavour, List.mem_filter] at hx
    simpa using hx.2
  · exact List.filter_sublist db
  · intro f
    simp [deleteFlavour, List.mem_filter]
  · intro h
    rw [deleteFlavour, List.filter_eq_self]
    intro a ha
    simpa using h a ha

/-- C9 witness: deleting an id that matches nothing leaves a concrete
collection unchanged. -/
theorem deleteFlavour_claim_witness :
    deleteFlavour [sampleRecord, sampleRecord2] "zzz" = [sampleRecord, sampleRecord2] :=
  (deleteFlavour_claim [sampleRecord, sampleRecord2] "zzz").2.2.2 (by decide)

theorem numOrZero_fin (q : ℚ) : numOrZero (.fin q) = .fin q := by
  by_cases h : q = 0
  · subst h; rfl
  · simp [numOrZero, jsTruthy, h]

theorem numOrZero_ne_nan (x : JSNum) : numOrZero x ≠ .nan := by
  cases x with
  | nan => simp [numOrZero, jsTruthy]
  | posInf => simp [numOrZero, jsTruthy]
  | negInf => simp [numOrZero, jsTruthy]
  | fin q => rw [numOrZero_fin]; simp

/-- C8: with both raw inputs parsing to finite numbers, a positive
pods-per-box yields exactly `round2 (pricePerBox / podsPerBox)`, and any
non-positive pods-per-box yields `0`. -/
theorem recalculatePricePerPod_claim :
    ∀ p b : ℚ,
      (0 < b → recalculatePricePerPod (.fin p) (.fin b) = .fin (round2 (p / b))) ∧
      (b ≤ 0 → recalculatePricePerPod (.fin p) (.fin b) = .fin 0) := by
  intro p b
  constructor
  · intro h
    rw [recalculatePricePerPod]
    simp only [numOrZero_fin]
    rw [if_pos (by simp [jsGtZero, h])]
    simp [jsDiv, toFixed2Number, ne_of_gt h]
  · intro h
    rw [recalculatePricePerPod]
    simp only [numOrZero_fin]
    rw [if_neg (by simp [jsGtZero, not_lt.mpr h])]

/-- C8 witness: concrete positive and zero pods-per-box inputs. -/
theorem recalculatePricePerPod_claim_witness :
    recalculatePricePerPod (.fin 10) (.fin 3) = .fin (round2 (10 / 3)) ∧
    recalculatePricePerPod (.fin 10) (.fin 0) = .fin 0 :=
  ⟨(recalculatePricePerPod_claim 10 3).1 (by norm_num),
   (recalculatePricePerPod_claim 10 0).2 (by norm_num)⟩

/-- C3 counterexample: an add input whose price parses to `-5` is stored
as `-5` — negative, so the claimed non-negativity invariant fails on the
code (`Number(x) || 0` only replaces falsy values). -/
theorem addFlavour_nonneg_counterexample :
    (addFlavour "gen" [] negPriceInput).2.pricePerBox = JSNum.fin (-5) ∧
    isNonNegFinite (addFlavour "gen" [] negPriceInput).2.pricePerBox = false := by
  constructor
  · decide
  · decide

/-- C3 amended: `addFlavour` stores each numeric field as
`Number(input) || 0` — parse failures (`NaN`) and zero become `0`, every
other value (negative or infinite included) is stored unchanged — so no
stored record ever holds a `NaN` numeric field, though it may hold a
negative or infinite one. -/
theorem addFlavour_numeric_coercion :
    ∀ (gid : String) (db : List FlavourRecord) (r : NewFlavour),
      (addFlavour gid db r).2.pricePerBox = numOrZero r.pricePerBox ∧
      (addFlavour gid db r).2.pricePerPod = numOrZero r.pricePerPod ∧
      (addFlavour gid db r).2.podsPerBox = numOrZero r.podsPerBox ∧
      noNaNFields (addFlavour gid db r).2 ∧
      ((∀ f ∈ db, noNaNFields f) → ∀ f ∈ (addFlavour gid db r).1, noNaNFields f) := by
  intro gid db r
  refine ⟨rfl, rfl, rfl, ⟨numOrZero_ne_nan _, numOrZero_ne_nan _, numOrZero_ne_nan _⟩, ?_⟩
  intro hdb f hf
  have hsplit : (addFlavour gid db r).1 = db ++ [(addFlavour gid db r).2] := rfl
  rw [hsplit, List.mem_append] at hf
  rcases hf with hf | hf
  · exact hdb f hf
  · rw [List.mem_singleton] at hf
    subst hf
    exact ⟨numOrZero_ne_nan _, numOrZero_ne_nan _, numOrZero_ne_nan _⟩

/-- C3 amended witness: concretely, every record of the collection after
adding the negative-price input has no `NaN` numeric field. -/
theorem addFlavour_numeric_coercion_witness :
    ∀ f ∈ (addFlavour "gen" [] negPriceInput).1, noNaNFields f :=
  (addFlavour_numeric_coercion "gen" [] negPriceInput).2.2.2.2 (by simp)

/-- C4 counterexample: a partial update that supplies an `id` field does
reassign the stored record's id — updating the record with id `"a"` by
`{ id: "b" }` stores and returns a record whose id is `"b"`. -/
theorem updateFlavour_id_counterexample :
    (updateFlavour [sampleRecord] "a" idOnlyUpdate).2.map FlavourRecord.id = some "b" ∧
    (updateFlavour [sampleRecord] "a" idOnlyUpdate).1.map FlavourRecord.id = ["b"] ∧
    sampleRecord.id = "a" ∧ ("b" : String) ≠ "a" := by
  refine ⟨by decide, by decide, rfl, by decide⟩

/-- C4 amended: `updateFlavour` merges the provided fields into the first
record whose id matches, leaves every field not present in the partial
unchanged, returns a not-found signal (and an untouched collection) when
no record matches, and leaves the record's id unchanged provided the
partial does not itself supply an `id` field. -/
theorem updateFlavour_merge_spec :
    ∀ (db : List FlavourRecord) (id : String) (u : FlavourUpdate),
      (getFlavour db id = none → updateFlavour db id u = (db, none)) ∧
      (∀ f, getFlavour db id = some f →
        (updateFlavour db id u).2 = some (mergeFlavour f u) ∧
        (updateFlavour db id u).1.length = db.length ∧
        (∀ g ∈ db, g.id ≠ id → g ∈ (updateFlavour db id u).1) ∧
        (u.id = none → (mergeFlavour f u).id = f.id) ∧
        (u.barcode = none → (mergeFlavour f u).barcode = f.barcode) ∧
        (u.name = none → (mergeFlavour f u).name = f.name) ∧
        (u.pricePerBox = none → (mergeFlavour f u).pricePerBox = f.pricePerBox) ∧
        (u.pricePerPod = none → (mergeFlavour f u).pricePerPod = f.pricePerPod) ∧
        (u.podsPerBox = none → (mergeFlavour f u).podsPerBox = f.podsPerBox) ∧
        (u.photoName = none → (mergeFlavour f u).photoName = f.photoName) ∧
        (u.photoData = none → (mergeFlavour f u).photoData = f.photoData) ∧
        (u.id = none → getFlavour (updateFlavour db id u).1 id = some (mergeFlavour f u))) := by
  intro db id u
  induction db with
  | nil =>
      constructor
      · intro _; rfl
      · intro f hf
        simp [getFlavour] at hf
  | cons a rest ih =>
      by_cases hid : (a.id == id) = true
      · constructor
        · intro hnone
          rw [getFlavour, List.find?_cons_of_pos rest hid] at hnone
          exact absurd hnone (by simp)
        · intro f hf
          rw [getFlavour, List.find?_cons_of_pos rest hid] at hf
          have hfa : a = f := by simpa using hf
          subst hfa
          have hupd : updateFlavour (a :: rest) id u =
              (mergeFlavour a u :: rest, some (mergeFlavour a u)) := by
            rw [updateFlavour, if_pos hid]
          refine ⟨by rw [hupd], by rw [hupd]; rfl, ?_, ?_, ?_, ?_, ?_, ?_, ?_, ?_, ?_, ?_⟩
          · intro g hg hgid
            rw [hupd]
            rcases List.mem_cons.mp hg with hg | hg
            · subst hg
              exact absurd (by simpa using hid) hgid
            · exact List.mem_cons_of_mem _ hg
          · intro h; simp [mergeFlavour, h]
          · intro h; simp [mergeFlavour, h]
          · intro h; simp [mergeFlavour, h]
          · intro h; simp [mergeFlavour, h]
          · intro h; simp [mergeFlavour, h]
          · intro h; simp [mergeFlavour, h]
          · intro h; simp [mergeFlavour, h]
          · intro h; simp [mergeFlavour, h]
          · intro h
            rw [hupd, getFlavour]
            have hmid : ((mergeFlavour a u).id == id) = true := by
              simp [mergeFlavour, h]
              simpa using hid
            rw [List.find?_cons_of_pos rest hmid]
      · have hupd : updateFlavour (a :: rest) id u =
            (a :: (updateFlavour rest id u).1, (updateFlavour rest id u).2) := by
          rw [updateFlavour, if_neg hid]
        constructor
        · intro hnone
          rw [getFlavour, List.find?_cons_of_neg rest hid] at hnone
          have hr := ih.1 hnone
          rw [hupd, hr]
        · intro f hf
          rw [getFlavour, List.find?_cons_of_neg rest hid] at hf
          have hr := ih.2 f hf
          refine ⟨by rw [hupd]; exact hr.1, by rw [hupd]; simpa using hr.2.1, ?_,
            hr.2.2.2.1, hr.2.2.2.2.1, hr.2.2.2.2.2.1, hr.2.2.2.2.2.2.1,
            hr.2.2.2.2.2.2.2.1, hr.2.2.2.2.2.2.2.2.1, hr.2.2.2.2.2.2.2.2.2.1,
            hr.2.2.2.2.2.2.2.2.2.2.1, ?_⟩
          · intro g hg hgid
            rw [hupd]
            rcases List.mem_cons.mp hg with hg | hg
            · subst hg; exact List.mem_cons_self _ _
            · exact List.mem_cons_of_mem _ (hr.2.2.1 g hg hgid)
          · intro h
            rw [hupd]
            have h1 : (a :: (updateFlavour rest id u).1, (updateFlavour rest id u).2).1 =
                a :: (updateFlavour rest id u).1 := rfl
            rw [h1, getFlavour,
              @List.find?_cons_of_neg _ (fun f => f.id == id) a (updateFlavour rest id u).1 hid]
            exact hr.2.2.2.2.2.2.2.2.2.2.2 h

/-- C4 amended witness: updating the concrete record `"a"` with only a
name change returns the merged record, and getting `"a"` afterwards
returns it with the new name and all other fields unchanged. -/
theorem updateFlavour_merge_spec_witness :
    (updateFlavour [sampleRecord] "a" nameOnlyUpdate).2 =
      some (mergeFlavour sampleRecord nameOnlyUpdate) ∧
    getFlavour (updateFlavour [sampleRecord] "a" nameOnlyUpdate).1 "a" =
      some (mergeFlavour sampleRecord nameOnlyUpdate) := by
  have h := (updateFlavour_merge_spec [sampleRecord] "a" nameOnlyUpdate).2 sampleRecord (by decide)
  exact ⟨h.1, h.2.2.2.2.2.2.2.2.2.2.2 rfl⟩

theorem xDigitsLen : ∀ y < 16, (Nat.toDigits 16 (y ||| 16)).length = 2 := by decide

theorem yDigitsLen : ∀ y < 16, (Nat.toDigits 16 (((y ||| 16) &&& 3) ||| 8)).length = 1 := by decide

theorem plainDigitsLen : ∀ v < 16, (Nat.toDigits 16 v).length = 1 := by decide

theorem plainYDigitsLen : ∀ v < 16, (Nat.toDigits 16 ((v &&& 3) ||| 8)).length = 1 := by decide

theorem andFifteenLt (n : ℕ) : n &&& 15 < 16 :=
  Nat.lt_succ_of_le Nat.and_le_right

theorem generateIdGo_true_length (rnd : ℕ → ℕ) :
    ∀ (cs : List Char) (k : ℕ),
      (generateIdGo true rnd cs k).length =
        (cs.map fun c => if c = 'x' then 2 else 1).sum := by
  intro cs
  induction cs with
  | nil => intro k; rfl
  | cons c cs ih =>
      intro k
      by_cases hx : c = 'x'
      · subst hx
        rw [generateIdGo, if_pos rfl]
        have hr : generateIdRand true rnd k = ((rnd k % 256) &&& 15) ||| 16 := rfl
        rw [List.length_append, hr, xDigitsLen _ (andFifteenLt _), ih (k + 1)]
        simp
      · by_cases hy : c = 'y'
        · subst hy
          rw [generateIdGo, if_neg (by decide), if_pos rfl]
          have hr : generateIdRand true rnd k = ((rnd k % 256) &&& 15) ||| 16 := rfl
          rw [List.length_append, hr, yDigitsLen _ (andFifteenLt _), ih (k + 1)]
          simp [hx]
        · rw [generateIdGo, if_neg hx, if_neg hy]
          simp only [List.length_cons, List.map_cons, List.sum_cons, ih k, if_neg hx]
          omega

theorem generateIdGo_false_length (rnd : ℕ → ℕ) :
    ∀ (cs : List Char) (k : ℕ), (generateIdGo false rnd cs k).length = cs.length := by
  intro cs
  induction cs with
  | nil => intro k; rfl
  | cons c cs ih =>
      intro k
      by_cases hx : c = 'x'
      · subst hx
        rw [generateIdGo, if_pos rfl]
        have hr : generateIdRand false rnd k = rnd k % 16 := rfl
        rw [List.length_append, hr, plainDigitsLen _ (Nat.mod_lt _ (by norm_num)), ih (k + 1)]
        simp [Nat.add_comm]
      · by_cases hy : c = 'y'
        · subst hy
          rw [generateIdGo, if_neg (by decide), if_pos rfl]
          have hr : generateIdRand false rnd k = rnd k % 16 := rfl
          rw [List.length_append, hr, plainYDigitsLen _ (Nat.mod_lt _ (by norm_num)), ih (k + 1)]
          simp [Nat.add_comm]
        · rw [generateIdGo, if_neg hx, if_neg hy]
          simp [ih k]

/-- C5: the claim's 36-character v4-UUID shape fails on the code's main
path.  With `crypto.getRandomValues` available (the default in every
browser) each of the 30 `x` positions receives `(byte & 0x0f) | 0x10`,
a value in `[16, 31]` whose hexadecimal rendering is two digits, so the
generated id is 66 characters long, not 36.  Only the `Math.random`
fallback path produces the intended 36-character shape. -/
theorem generateId_crypto_length_bug :
    ∀ rnd : ℕ → ℕ,
      (generateId true rnd).length = 66 ∧
      (generateId true rnd).length ≠ 36 ∧
      (generateId false rnd).length = 36 := by
  intro rnd
  have h66 : (generateId true rnd).length = 66 := by
    rw [generateId, generateIdGo_true_length]
    decide
  have h36 : (generateId false rnd).length = 36 := by
    rw [generateId, generateIdGo_false_length]
    decide
  exact ⟨h66, by rw [h66]; decide, h36⟩

/-- C7: the login response parser returns `true` exactly when the selected
result node's textual content, trimmed and lower-cased, equals `"true"`;
the node is selected by the namespaced lookup first with a non-namespaced
fallback; and every failure (DOM throwing on malformed input, missing
node, null content) yields `false` — the parser is total, so it never
throws. -/
theorem parseLoginResponse_claim :
    (∀ d : DomOutcome,
      parseLoginResponse d = true ↔
        ∃ n, selectedNode d = some n ∧
          jsToLower (jsTrim (n.textContent.getD "").toList) = "true".toList) ∧
    (∀ d : DomOutcome, selectedNode d = none → parseLoginResponse d = false) ∧
    parseLoginResponse DomOutcome.throws = false ∧
    (∀ nsNode plainNode,
      selectedNode (DomOutcome.parsed (some nsNode) plainNode) = some nsNode) ∧
    (∀ plainNode, selectedNode (DomOutcome.parsed none plainNode) = plainNode) := by
  refine ⟨?_, ?_, rfl, fun _ _ => rfl, fun _ => rfl⟩
  · intro d
    cases d with
    | throws =>
        simp [parseLoginResponse, selectedNode]
    | parsed nsNode plainNode =>
        cases hnode : nsNode.orElse (fun _ => plainNode) with
        | none =>
            rw [parseLoginResponse]
            simp only [hnode, selectedNode, Option.bind_none, Option.getD_none]
            constructor
            · intro hfalse
              exact absurd hfalse (by decide)
            · rintro ⟨n, hn, -⟩
              exact absurd hn (by simp)
        | some n =>
            rw [parseLoginResponse]
            simp only [hnode, selectedNode, Option.bind_some, beq_iff_eq]
            constructor
            · intro heq
              exact ⟨n, rfl, by simpa using heq⟩
            · rintro ⟨n', hn', hcontent⟩
              have : n = n' := by simpa using hn'
              subst this
              simpa using hcontent
  · intro d hd
    cases d with
    | throws => rfl
    | parsed nsNode plainNode =>
        rw [parseLoginResponse]
        rw [selectedNode] at hd
        simp only [hd, Option.bind_none, Option.getD_none]
        decide

/-- C7 witness: a DOM outcome with no result node at all parses to
`false`, and one whose namespaced node holds `true` parses to `true`. -/
theorem parseLoginResponse_claim_witness :
    parseLoginResponse (DomOutcome.parsed none none) = false ∧
    parseLoginResponse (DomOutcome.parsed (some ⟨some "true"⟩) none) = true :=
  ⟨parseLoginResponse_claim.2.1 (DomOutcome.parsed none none) rfl,
   (parseLoginResponse_claim.1 (DomOutcome.parsed (some ⟨some "true"⟩) none)).mpr
     ⟨⟨some "true"⟩, rfl, by decide⟩⟩

theorem loginAttempts_allNet (dom : String → DomOutcome) (responses : ℕ → TransportResult)
    (h : ∀ i, responses i = .err netErr0) :
    ∀ n idx s, loginAttempts dom responses n idx s =
      ({ s with authenticated := false,
                errors := s.errors ++ [connectionNetworkError] }, false, n + 1) := by
  intro n
  induction n with
  | zero =>
      intro idx s
      simp [loginAttempts, h idx, handleLoginError, netErr0, connectionNetworkError,
        createLoginError]
  | succ n ih =>
      intro idx s
      simp [loginAttempts, h idx, isRetryableError, netErr0, ih (idx + 1)]

/-- C1: a retryable transport failure (status 0, status at least 500, or a
timeout) with attempts remaining makes the service retry the same request;
a single status-0 failure followed by a successful parse on the retry ends
authenticated with an empty error list after two requests; and with retry
limit `k`, `k + 1` consecutive status-0 failures end unauthenticated with
exactly the `network`-kind typed error after `k + 1` requests. -/
theorem login_retry_claim :
    ∀ (dom : String → DomOutcome) (responses : ℕ → TransportResult),
      (∀ n idx s e, responses idx = TransportResult.err e → isRetryableError e = true →
        loginAttempts dom responses (n + 1) idx s =
          ((loginAttempts dom responses n (idx + 1) s).1,
           (loginAttempts dom responses n (idx + 1) s).2.1,
           (loginAttempts dom responses n (idx + 1) s).2.2 + 1)) ∧
      (∀ k s body, s.loading = false →
        responses 0 = TransportResult.err netErr0 →
        responses 1 = TransportResult.ok body →
        parseLoginResponse (dom body) = true →
        login (k + 1) dom responses s = (⟨false, [], true⟩, true, 2)) ∧
      (∀ k s, s.loading = false → (∀ i, responses i = TransportResult.err netErr0) →
        login k dom responses s = (⟨false, [connectionNetworkError], false⟩, false, k + 1)) := by
  intro dom responses
  refine ⟨?_, ?_, ?_⟩
  · intro n idx s e h1 h2
    simp [loginAttempts, h1, h2]
  · intro k s body h0 hr0 hr1 hp
    have hstep : loginAttempts dom responses (k + 1) 0
          { loading := true, errors := [], authenticated := s.authenticated } =
        ({ loading := true, errors := [], authenticated := true }, true, 2) := by
      cases k with
      | zero =>
          simp [loginAttempts, hr0, hr1, loginParsedStep, hp, isRetryableError, netErr0]
      | succ k =>
          simp [loginAttempts, hr0, hr1, loginParsedStep, hp, isRetryableError, netErr0]
    simp [login, h0, hstep]
  · intro k s h0 hall
    simp [login, h0, loginAttempts_allNet dom responses hall k 0]

/-- C1 witness: with retry limit 2 (the configured value) and every
attempt failing with status 0, a login from the idle state ends
unauthenticated with the single `network` error after three requests. -/
theorem login_retry_claim_witness :
    login 2 noDom allNetResponses idleState =
      (⟨false, [connectionNetworkError], false⟩, false, 3) :=
  (login_retry_claim noDom allNetResponses).2.2 2 idleState rfl (fun _ => rfl)

/-- C2: while a login operation is in flight (the loading flag is set),
invoking `login` again is a no-op returning the failure result `false`:
the state — error list included — is unchanged and no transport request is
issued; and `LoginPage.submit` likewise refuses to start a second login. -/
theorem login_busy_guard_claim :
    ∀ (retryLimit : ℕ) (dom : String → DomOutcome) (responses : ℕ → TransportResult)
      (s : UiState), s.loading = true →
      login retryLimit dom responses s = (s, false, 0) ∧
      (∀ formInvalid, submit formInvalid (login retryLimit dom responses) s = (s, 0)) := by
  intro retryLimit dom responses s h
  constructor
  · rw [login, if_pos h]
  · intro formInvalid
    rw [submit, if_pos (by simp [h])]

/-- C2 witness: from a concrete in-flight state, a second login and a
second submit are both rejected with no request and no state change. -/
theorem login_busy_guard_claim_witness :
    login 2 goodDom failThenOkResponses busyState = (busyState, false, 0) ∧
    submit false (login 2 goodDom failThenOkResponses) busyState = (busyState, 0) := by
  have h := login_busy_guard_claim 2 goodDom failThenOkResponses busyState rfl
  exact ⟨h.1, h.2 false⟩
